import Mathlib

/-!
# canvas-cpp: frame callback scheduler and drawing context

A shallow embedding of `src/Callback.h` and `src/Context.cpp`.

* C++ `double` / `float` quantities are exact rationals (`ℚ`); `Callback` is also
  given in binary64 arithmetic, where every sum and difference is rounded.
* A member function becomes a function from the object (and its arguments) to the
  updated object.
* The script function held by a `Callback` acts on a host state `H`.
-/

namespace canvas

/-! ## Callback.h -/

/-- The data members of `class Callback`: `m_interval` and `m_current`, both in
seconds.  The persistent handle `m_function` is supplied to `call` as the
function it refers to. -/
structure Callback where
  m_interval : ℚ
  m_current : ℚ
deriving DecidableEq

/-- Constructor `Callback(func, interval)`: the interval is given in milliseconds
and stored as `static_cast<double>(interval) / 1000.0`; `m_current` starts at 0. -/
def Callback.new (interval : Int) : Callback :=
  { m_interval := (interval : ℚ) / 1000, m_current := 0 }

/-- Method `Callback::call(dt)`.  `m_function` is the registered script function,
acting on the host state and returning a value; the result is the returned value
(`none` for `v8::Undefined()`), the updated callback and the host state. -/
def Callback.call {H V : Type} (m_function : H → V × H) (self : Callback) (dt : ℚ)
    (host : H) : Option V × Callback × H :=
  let self := { self with m_current := self.m_current + dt }
  if self.m_current > self.m_interval then
    let self := { self with m_current := self.m_current - self.m_interval }
    let r := m_function host
    (some r.1, self, r.2)
  else
    (none, self, host)

/-- The external loop: one `call` per tick, in order, threading callback and host
state. -/
def Callback.run {H V : Type} (m_function : H → V × H) (self : Callback) :
    List ℚ → H → Callback × H
  | [], host => (self, host)
  | dt :: dts, host =>
    let r := Callback.call m_function self dt host
    Callback.run m_function r.2.1 dts r.2.2

/-- A registered function whose only effect is to count its own invocations: the
host state is the number of invocations made so far. -/
def tally : ℕ → Unit × ℕ := fun n => ((), n + 1)

/-- The effect of a script function on the host state alone. -/
def effect {H V : Type} (f : H → V × H) : H → H := fun h => (f h).2

/-! ### Callback.h in binary64 arithmetic -/

/-- Modelled from the spec: `Canvas::Format` (declared in a header): the output
channel order requested at construction, either the internal order or the
channel-swapped one, `Canvas::kRGBA`, the only value `Context.cpp` names. -/
inductive Canvas.Format where
  | kARGB
  | kRGBA
deriving DecidableEq

/-- Backend colour `SkColor`: alpha, red, green and blue channels, 8 bits each. -/
structure SkColor where
  a : ℕ
  r : ℕ
  g : ℕ
  b : ℕ
deriving DecidableEq

/-- Backend `SkColorSetARGB`. -/
def SkColorSetARGB (a r g b : ℕ) : SkColor := { a := a, r := r, g := g, b := b }

/-- Backend `SkPaint::Cap`. -/
inductive SkPaint.Cap where
  | kButt_Cap
  | kRound_Cap
  | kSquare_Cap
deriving DecidableEq

/-- Backend `SkPaint::Style`. -/
inductive SkPaint.Style where
  | kFill_Style
  | kStroke_Style
deriving DecidableEq

/-- Backend `SkPaint`, the paint attributes `Context.cpp` sets. -/
structure SkPaint where
  antiAlias : Bool
  style : SkPaint.Style
  color : SkColor
  strokeWidth : ℚ
  strokeCap : SkPaint.Cap
deriving DecidableEq

def SkPaint.setAntiAlias (p : SkPaint) (aa : Bool) : SkPaint := { p with antiAlias := aa }

def SkPaint.setStyle (p : SkPaint) (st : SkPaint.Style) : SkPaint := { p with style := st }

/-- Backend `SkPaint::setColor`: replaces all four channels. -/
def SkPaint.setColor (p : SkPaint) (c : SkColor) : SkPaint := { p with color := c }

/-- Backend `SkPaint::setAlpha`: replaces only the alpha channel, which holds 8 bits. -/
def SkPaint.setAlpha (p : SkPaint) (a : ℕ) : SkPaint :=
  { p with color := { p.color with a := a % 256 } }

def SkPaint.setStrokeWidth (p : SkPaint) (w : ℚ) : SkPaint := { p with strokeWidth := w }

def SkPaint.setStrokeCap (p : SkPaint) (c : SkPaint.Cap) : SkPaint := { p with strokeCap := c }

/-- The implicit C++ conversion of a `float` to the `U8CPU` (unsigned) argument of
`setAlpha`: the fractional part is discarded.  C++ defines it for values in
`(-1, 2^32)`. -/
def toU8CPU (x : ℚ) : ℕ := (Rat.floor x).toNat

/-- Backend `SkRect`. -/
structure SkRect where
  left : ℚ
  top : ℚ
  right : ℚ
  bottom : ℚ
deriving DecidableEq

def SkRect.MakeLTRB (l t r b : ℚ) : SkRect := { left := l, top := t, right := r, bottom := b }

def SkRect.MakeXYWH (x y w h : ℚ) : SkRect :=
  { left := x, top := y, right := x + w, bottom := y + h }

/-- One entry of the path command log. -/
inductive PathCommand where
  | moveTo (x y : ℚ)
  | lineTo (x y : ℚ)
  | quadTo (cpx cpy x y : ℚ)
  | cubicTo (cp1x cp1y cp2x cp2y x y : ℚ)
  | arcTo (x1 y1 x2 y2 radius : ℚ)
  | addRect (left top right bottom : ℚ)
deriving DecidableEq

/-- Backend `SkPath`, as the ordered log of the commands issued since the last
`rewind`. -/
abbrev SkPath := List PathCommand

def SkPath.rewind (_p : SkPath) : SkPath := []

def SkPath.moveTo (p : SkPath) (x y : ℚ) : SkPath := p ++ [.moveTo x y]

def SkPath.lineTo (p : SkPath) (x y : ℚ) : SkPath := p ++ [.lineTo x y]

def SkPath.quadTo (p : SkPath) (cpx cpy x y : ℚ) : SkPath := p ++ [.quadTo cpx cpy x y]

def SkPath.cubicTo (p : SkPath) (cp1x cp1y cp2x cp2y x y : ℚ) : SkPath :=
  p ++ [.cubicTo cp1x cp1y cp2x cp2y x y]

def SkPath.arcTo (p : SkPath) (x1 y1 x2 y2 radius : ℚ) : SkPath :=
  p ++ [.arcTo x1 y1 x2 y2 radius]

def SkPath.addRect (p : SkPath) (l t r b : ℚ) : SkPath := p ++ [.addRect l t r b]

/-- The backend's surface (`SkBitmap` + `SkDevice` + `SkCanvas`) as an abstract
state `S`, with the calls `Context.cpp` makes on it.  `getPixels` is the pixel
array of `m_bitmap`, `getSize()` bytes long. -/
structure Skia (S Bmp : Type) where
  newSurface : Int → Int → S
  newPaint : SkPaint
  getPixels : S → List ℕ
  eraseARGB : ℕ → ℕ → ℕ → ℕ → S → S
  scale : ℚ → ℚ → S → S
  rotate : ℚ → S → S
  translate : ℚ → ℚ → S → S
  drawBitmapRect : Bmp → Option SkRect → SkRect → SkPaint → S → S
  drawPath : SkPath → SkPaint → S → S
  drawRect : SkRect → SkPaint → S → S

/-- Modelled from the spec: `State` (declared in a header), one frame of the state
stack, with the fields `Context.cpp` reads and writes; the resolved colours have
the header type `Color`, a parameter here. -/
structure State (Color : Type) where
  lineWidth : ℚ
  lineCapString : String
  strokeStyleString : String
  strokeStyle : Color
  fillStyleString : String
  fillStyle : Color
  globalAlpha : ℚ
deriving DecidableEq

/-- The header functions `Context.cpp` calls: `ColorParser::parse` (`m_parser`),
`Color::toSkia`, `State::skiaCap`, and the default-constructed `State()`. -/
structure Decls (Color : Type) where
  parse : String → Color
  toSkia : Color → SkColor
  skiaCap : State Color → SkPaint.Cap
  defaultState : State Color

/-- Modelled from the spec: `ImageData` (declared in a header): an image with its
intrinsic width and height and its backend bitmap. -/
structure ImageData (Bmp : Type) where
  width : Int
  height : Int
  bitmap : Bmp

/-- The member `m_stateStack`, a `std::vector<State>` that the constructor seeds
with one state: the frames below the last one, and the last one (`back()`). -/
structure StateStack (Color : Type) where
  below : List (State Color)
  back : State Color
deriving DecidableEq

/-! ## Context.cpp -/

/-- The data members of `class Context`.  `m_surface` stands for `m_bitmap`,
`m_device` and `m_canvas`; `m_parser` is `Decls.parse`. -/
structure Context (S Color : Type) where
  m_surface : S
  m_width : Int
  m_height : Int
  m_format : Canvas.Format
  m_stateStack : StateStack Color
  m_fillPaint : SkPaint
  m_strokePaint : SkPaint
  m_path : SkPath

section ContextOps
variable {S Bmp Color : Type}

/-- Accessor `currentState()`: the last frame of the state stack. -/
def Context.currentState (self : Context S Color) : State Color := self.m_stateStack.back

/-- Assignment through the reference `currentState()`. -/
def Context.setCurrentState (self : Context S Color) (st : State Color) : Context S Color :=
  { self with m_stateStack := { self.m_stateStack with back := st } }

/-- Method `Context::syncPaintWithState`. -/
def Context.syncPaintWithState (D : Decls Color) (self : Context S Color) : Context S Color :=
  let state := self.currentState
  let fill := self.m_fillPaint.setColor (D.toSkia state.fillStyle)
  let self := { self with m_fillPaint := fill }
  let fill := self.m_fillPaint.setAlpha (toU8CPU (state.globalAlpha * 255))
  let self := { self with m_fillPaint := fill }
  let stroke := self.m_strokePaint.setColor (D.toSkia state.strokeStyle)
  let self := { self with m_strokePaint := stroke }
  let stroke := self.m_strokePaint.setAlpha (toU8CPU (state.globalAlpha * 255))
  let self := { self with m_strokePaint := stroke }
  let self := { self with m_strokePaint := self.m_strokePaint.setStrokeWidth state.lineWidth }
  { self with m_strokePaint := self.m_strokePaint.setStrokeCap (D.skiaCap state) }

/-- Constructor `Context::Context(width, height, format)`. -/
def Context.new (K : Skia S Bmp) (D : Decls Color) (width height : Int)
    (format : Canvas.Format) : Context S Color :=
  let surface := K.eraseARGB 0 0 0 0 (K.newSurface width height)
  let fillPaint := (K.newPaint.setAntiAlias true).setStyle .kFill_Style
  let strokePaint := (K.newPaint.setAntiAlias true).setStyle .kStroke_Style
  Context.syncPaintWithState D
    { m_surface := surface, m_width := width, m_height := height, m_format := format,
      m_stateStack := { below := [], back := D.defaultState },
      m_fillPaint := fillPaint, m_strokePaint := strokePaint, m_path := [] }

/-- Method `Context::setLineWidth`. -/
def Context.setLineWidth (self : Context S Color) (width : ℚ) : Context S Color :=
  let self := { self with m_strokePaint := self.m_strokePaint.setStrokeWidth width }
  self.setCurrentState { self.currentState with lineWidth := width }

/-- Method `Context::setLineCap`. -/
def Context.setLineCap (D : Decls Color) (self : Context S Color) (cap : String) :
    Context S Color :=
  let self := self.setCurrentState { self.currentState with lineCapString := cap }
  { self with m_strokePaint := self.m_strokePaint.setStrokeCap (D.skiaCap self.currentState) }

/-- Method `Context::setStrokeStyle`. -/
def Context.setStrokeStyle (D : Decls Color) (self : Context S Color) (style : String) :
    Context S Color :=
  let state := self.currentState
  let state := { state with strokeStyleString := style }
  let state := { state with strokeStyle := D.parse style }
  let self := self.setCurrentState state
  { self with m_strokePaint := self.m_strokePaint.setColor (D.toSkia state.strokeStyle) }

/-- Method `Context::setFillStyle`. -/
def Context.setFillStyle (D : Decls Color) (self : Context S Color) (style : String) :
    Context S Color :=
  let state := self.currentState
  let state := { state with fillStyleString := style }
  let state := { state with fillStyle := D.parse style }
  let self := self.setCurrentState state
  { self with m_fillPaint := self.m_fillPaint.setColor (D.toSkia state.fillStyle) }

/-- Method `Context::setGlobalAlpha`. -/
def Context.setGlobalAlpha (self : Context S Color) (alpha : ℚ) : Context S Color :=
  let self := self.setCurrentState { self.currentState with globalAlpha := alpha }
  let self := { self with m_strokePaint := self.m_strokePaint.setAlpha (toU8CPU (alpha * 255)) }
  { self with m_fillPaint := self.m_fillPaint.setAlpha (toU8CPU (alpha * 255)) }

/-- Method `Context::scale`. -/
def Context.scale (K : Skia S Bmp) (self : Context S Color) (x y : ℚ) : Context S Color :=
  { self with m_surface := K.scale x y self.m_surface }

/-- Method `Context::rotate`. -/
def Context.rotate (K : Skia S Bmp) (self : Context S Color) (angle : ℚ) : Context S Color :=
  { self with m_surface := K.rotate angle self.m_surface }

/-- Method `Context::translate`. -/
def Context.translate (K : Skia S Bmp) (self : Context S Color) (x y : ℚ) : Context S Color :=
  { self with m_surface := K.translate x y self.m_surface }

/-- Method `Context::drawImage`; the source rectangle passed to the backend is the
null pointer. -/
def Context.drawImage (K : Skia S Bmp) (self : Context S Color) (image : ImageData Bmp)
    (x y width height : ℚ) : Context S Color :=
  let surface := K.drawBitmapRect image.bitmap none
    (SkRect.MakeLTRB x y (x + width) (y + height)) self.m_fillPaint self.m_surface
  { self with m_surface := surface }

/-- Method `Context::beginPath`. -/
def Context.beginPath (self : Context S Color) : Context S Color :=
  { self with m_path := self.m_path.rewind }

/-- Method `Context::closePath`, whose body is empty. -/
def Context.closePath (self : Context S Color) : Context S Color := self

/-- Method `Context::fill`. -/
def Context.fill (K : Skia S Bmp) (self : Context S Color) : Context S Color :=
  { self with m_surface := K.drawPath self.m_path self.m_fillPaint self.m_surface }

/-- Method `Context::stroke`. -/
def Context.stroke (K : Skia S Bmp) (self : Context S Color) : Context S Color :=
  { self with m_surface := K.drawPath self.m_path self.m_strokePaint self.m_surface }

/-- Method `Context::clip`, whose body is empty. -/
def Context.clip (self : Context S Color) : Context S Color := self

/-- Method `Context::moveTo`. -/
def Context.moveTo (self : Context S Color) (x y : ℚ) : Context S Color :=
  { self with m_path := self.m_path.moveTo x y }

/-- Method `Context::lineTo`. -/
def Context.lineTo (self : Context S Color) (x y : ℚ) : Context S Color :=
  { self with m_path := self.m_path.lineTo x y }

/-- Method `Context::quadraticCurveTo`. -/
def Context.quadraticCurveTo (self : Context S Color) (cpx cpy x y : ℚ) : Context S Color :=
  { self with m_path := self.m_path.quadTo cpx cpy x y }

/-- Method `Context::bezierCurveTo`. -/
def Context.bezierCurveTo (self : Context S Color) (cp1x cp1y cp2x cp2y x y : ℚ) :
    Context S Color :=
  { self with m_path := self.m_path.cubicTo cp1x cp1y cp2x cp2y x y }

/-- Method `Context::arcTo`. -/
def Context.arcTo (self : Context S Color) (x1 y1 x2 y2 radius : ℚ) : Context S Color :=
  { self with m_path := self.m_path.arcTo x1 y1 x2 y2 radius }

/-- Method `Context::rect`. -/
def Context.rect (self : Context S Color) (x y width height : ℚ) : Context S Color :=
  { self with m_path := self.m_path.addRect x y (x + width) (y + height) }

/-- Method `Context::fillRect`. -/
def Context.fillRect (K : Skia S Bmp) (self : Context S Color) (x y width height : ℚ) :
    Context S Color :=
  let surface := K.drawRect (SkRect.MakeXYWH x y width height) self.m_fillPaint self.m_surface
  { self with m_surface := surface }

/-- Method `Context::strokeRect`. -/
def Context.strokeRect (K : Skia S Bmp) (self : Context S Color) (x y width height : ℚ) :
    Context S Color :=
  let surface := K.drawRect (SkRect.MakeXYWH x y width height) self.m_strokePaint self.m_surface
  { self with m_surface := surface }

/-- Method `Context::clear`. -/
def Context.clear (K : Skia S Bmp) (self : Context S Color) : Context S Color :=
  { self with m_surface := K.eraseARGB 0 0 0 0 self.m_surface }

/-- Method `Context::clearRect`. -/
def Context.clearRect (K : Skia S Bmp) (self : Context S Color) (x y width height : ℚ) :
    Context S Color :=
  let paint := K.newPaint
  let paint := paint.setColor (SkColorSetARGB 0 0 0 0)
  { self with m_surface := K.drawRect (SkRect.MakeXYWH x y width height) paint self.m_surface }

/-! ### copyImageTo -/

/-- Why a run over raw buffers stops without a result: an index outside a buffer
(undefined behaviour in C++), or the iteration bound of the embedding reached. -/
inductive Fault where
  | outOfBounds
  | iterationBound
deriving DecidableEq

/-- The two byte buffers of `copyImageTo` (`sourceData` is the internal pixel
array, `targetData` the caller's), with a record of the indices read from the
source and written to the target, in order, and the number of loop iterations
completed. -/
structure Buffers where
  sourceData : List ℕ
  targetData : List ℕ
  reads : List ℕ
  writes : List ℕ
  iterations : ℕ
deriving DecidableEq

/-- The read `sourceData[i]`. -/
def Buffers.read (m : Buffers) (i : ℕ) : Except Fault (ℕ × Buffers) :=
  match m.sourceData[i]? with
  | some v => .ok (v, { m with reads := m.reads ++ [i] })
  | none => .error .outOfBounds

/-- The write `targetData[i] = v`. -/
def Buffers.write (m : Buffers) (i v : ℕ) : Except Fault Buffers :=
  if i < m.targetData.length then
    .ok { m with targetData := m.targetData.set i v, writes := m.writes ++ [i] }
  else .error .outOfBounds

/-- The range of `size_t`. -/
def SIZE_MOD : ℕ := 2 ^ 64

/-- The body of the loop of `copyImageTo`, at index `i`. -/
def copyImageTo.body (i : ℕ) (m : Buffers) : Except Fault Buffers := do
  let (v, m) ← m.read (i + 1)
  let m ← m.write (i + 0) v
  let (v, m) ← m.read (i + 2)
  let m ← m.write (i + 1) v
  let (v, m) ← m.read (i + 3)
  let m ← m.write (i + 2) v
  let (v, m) ← m.read (i + 0)
  m.write (i + 3) v

/-- The loop `for (size_t i = ..; i < size; i += 4)` of `copyImageTo`, from index
`i`, with a bound on the number of condition tests. -/
def copyImageTo.loop (size : ℕ) : ℕ → ℕ → Buffers → Except Fault Buffers
  | 0, _, _ => .error .iterationBound
  | bound + 1, i, m =>
    if i < size then do
      let m ← copyImageTo.body i m
      copyImageTo.loop size bound ((i + 4) % SIZE_MOD) { m with iterations := m.iterations + 1 }
    else .ok m

/-- The call `memcpy(target, source, size)`. -/
def memcpy (m : Buffers) (size : ℕ) : Except Fault Buffers :=
  if size ≤ m.sourceData.length ∧ size ≤ m.targetData.length then
    .ok { m with targetData := m.sourceData.take size ++ m.targetData.drop size,
                 reads := m.reads ++ List.range size,
                 writes := m.writes ++ List.range size }
  else .error .outOfBounds

/-- Method `Context::copyImageTo(target)`: `target` is the content of the caller's
buffer before the call.  The loop tests its condition at most `size + 1` times. -/
def Context.copyImageTo (K : Skia S Bmp) (self : Context S Color) (target : List ℕ) :
    Except Fault Buffers :=
  let source := K.getPixels self.m_surface
  let size := source.length
  let m : Buffers :=
    { sourceData := source, targetData := target, reads := [], writes := [], iterations := 0 }
  if self.m_format = Canvas.Format.kRGBA then
    copyImageTo.loop size (size + 1) 0 m
  else
    memcpy m size

/-! ### drawImageCallback -/

/-- The value conversions of the binding layer used by `drawImageCallback`, for a
type `Val` of script values: `binding::Object<ImageData>::unwrap` (`none` for a
null pointer), `binding::Translate<float>::to`, and the value `args[i]` yields
beyond the argument count. -/
structure Binding (Val Bmp : Type) where
  unwrapImage : Val → Option (ImageData Bmp)
  toFloat : Val → ℚ
  undefined : Val

/-- The `v8::Arguments` of a call: the context the holder object unwraps to
(`none` for a null pointer) and the positional arguments. -/
structure Arguments (Val S Color : Type) where
  holder : Option (Context S Color)
  values : List Val

/-- How a call of `drawImageCallback` ends: stopped by the assertion on the
argument count, stopped by the assertion `self && image`, or returning
`v8::Undefined()`. -/
inductive CallbackResult where
  | wrongArgumentCount
  | nullObject
  | undefined
deriving DecidableEq

/-- Static method `Context::drawImageCallback(args)`: the result, and the holder's
context after the call.  A failing `assert` stops the call where it stands. -/
def Context.drawImageCallback {Val : Type} (K : Skia S Bmp) (J : Binding Val Bmp)
    (args : Arguments Val S Color) : CallbackResult × Option (Context S Color) :=
  let len := args.values.length
  if ¬ (len = 3 ∨ len = 5) then (.wrongArgumentCount, args.holder)
  else
    let self := args.holder
    let image := J.unwrapImage (args.values.getD 0 J.undefined)
    match self, image with
    | some self, some image =>
      let x := J.toFloat (args.values.getD 1 J.undefined)
      let y := J.toFloat (args.values.getD 2 J.undefined)
      let width :=
        if len = 3 then (image.width : ℚ) else J.toFloat (args.values.getD 3 J.undefined)
      let height :=
        if len = 3 then (image.height : ℚ) else J.toFloat (args.values.getD 4 J.undefined)
      (.undefined, some (self.drawImage K image x y width height))
    | _, _ => (.nullObject, args.holder)

/-! ### Sequences of operations -/

/-- The operations of `Context` defined in `Context.cpp`, with their arguments. -/
inductive Op (Bmp : Type) where
  | copyImageTo (target : List ℕ)
  | setLineWidth (width : ℚ)
  | setLineCap (cap : String)
  | setStrokeStyle (style : String)
  | setFillStyle (style : String)
  | setGlobalAlpha (alpha : ℚ)
  | scale (x y : ℚ)
  | rotate (angle : ℚ)
  | translate (x y : ℚ)
  | drawImage (image : ImageData Bmp) (x y width height : ℚ)
  | beginPath
  | closePath
  | fill
  | stroke
  | clip
  | moveTo (x y : ℚ)
  | lineTo (x y : ℚ)
  | quadraticCurveTo (cpx cpy x y : ℚ)
  | bezierCurveTo (cp1x cp1y cp2x cp2y x y : ℚ)
  | arcTo (x1 y1 x2 y2 radius : ℚ)
  | rect (x y width height : ℚ)
  | fillRect (x y width height : ℚ)
  | strokeRect (x y width height : ℚ)
  | clear
  | clearRect (x y width height : ℚ)
  | syncPaintWithState

/-- Whether an operation is `beginPath`. -/
def Op.isBeginPath : Op Bmp → Bool
  | .beginPath => true
  | _ => false

/-- The context after one operation.  `copyImageTo` assigns to no member: it
writes the caller's buffer only (see `Context.copyImageTo`). -/
def Context.step (K : Skia S Bmp) (D : Decls Color) (self : Context S Color) :
    Op Bmp → Context S Color
  | .copyImageTo _ => self
  | .setLineWidth w => self.setLineWidth w
  | .setLineCap cap => self.setLineCap D cap
  | .setStrokeStyle style => self.setStrokeStyle D style
  | .setFillStyle style => self.setFillStyle D style
  | .setGlobalAlpha alpha => self.setGlobalAlpha alpha
  | .scale x y => self.scale K x y
  | .rotate angle => self.rotate K angle
  | .translate x y => self.translate K x y
  | .drawImage image x y w h => self.drawImage K image x y w h
  | .beginPath => self.beginPath
  | .closePath => self.closePath
  | .fill => self.fill K
  | .stroke => self.stroke K
  | .clip => self.clip
  | .moveTo x y => self.moveTo x y
  | .lineTo x y => self.lineTo x y
  | .quadraticCurveTo cpx cpy x y => self.quadraticCurveTo cpx cpy x y
  | .bezierCurveTo a b c d x y => self.bezierCurveTo a b c d x y
  | .arcTo x1 y1 x2 y2 r => self.arcTo x1 y1 x2 y2 r
  | .rect x y w h => self.rect x y w h
  | .fillRect x y w h => self.fillRect K x y w h
  | .strokeRect x y w h => self.strokeRect K x y w h
  | .clear => self.clear K
  | .clearRect x y w h => self.clearRect K x y w h
  | .syncPaintWithState => self.syncPaintWithState D

/-- The context after a sequence of operations, applied in order. -/
def Context.steps (K : Skia S Bmp) (D : Decls Color) (self : Context S Color)
    (ops : List (Op Bmp)) : Context S Color :=
  ops.foldl (Context.step K D) self

end ContextOps

/-! ## Vocabulary of the statements -/

/-- A pixel: its four bytes, in buffer order. -/
abbrev Pixel := ℕ × ℕ × ℕ × ℕ

/-- The byte buffer holding the given pixels, four bytes each. -/
def pixelBytes : List Pixel → List ℕ
  | [] => []
  | (a, b, c, d) :: ps => a :: b :: c :: d :: pixelBytes ps

/-- The channel swap of one pixel: bytes `[A, B, C, D]` become `[B, C, D, A]`. -/
def Pixel.swap : Pixel → Pixel
  | (a, b, c, d) => (b, c, d, a)

/-- The source indices the swapping loop reads during `n` iterations from index
`i`, in order. -/
def swapReads : ℕ → ℕ → List ℕ
  | _, 0 => []
  | i, n + 1 => (i + 1) :: (i + 2) :: (i + 3) :: (i + 0) :: swapReads (i + 4) n

/-- The current state's resolved colours are the parse of its descriptor strings. -/
def Context.stylesResolved {S Color : Type} (D : Decls Color) (self : Context S Color) : Prop :=
  self.currentState.strokeStyle = D.parse self.currentState.strokeStyleString ∧
  self.currentState.fillStyle = D.parse self.currentState.fillStyleString

instance {S Color : Type} [DecidableEq Color] (D : Decls Color) (self : Context S Color) :
    Decidable (Context.stylesResolved D self) := by
  unfold Context.stylesResolved
  exact instDecidableAnd

/-! ## A sample instantiation

Concrete values for the parameters of the embedding, used to run the definitions
on explicit inputs. -/

/-- A backend whose surface is just its pixel bytes and whose drawing calls leave
them as they are. -/
def Sample.skia : Skia (List ℕ) Unit where
  newSurface := fun w h => List.replicate (w * h * 4).toNat 0
  newPaint :=
    { antiAlias := false, style := .kFill_Style, color := SkColorSetARGB 255 0 0 0,
      strokeWidth := 0, strokeCap := .kButt_Cap }
  getPixels := fun s => s
  eraseARGB := fun a r g b s => pixelBytes (List.replicate (s.length / 4) (a, r, g, b))
  scale := fun _ _ s => s
  rotate := fun _ s => s
  translate := fun _ _ s => s
  drawBitmapRect := fun _ _ _ _ s => s
  drawPath := fun _ _ s => s
  drawRect := fun _ _ s => s

/-- Modelled from the spec: a style resolver on the descriptors the spec's testable
properties name (`#ff0000` and `rgb(255,0,0)` are the same opaque red,
`rgba(0,0,0,0.5)` has alpha 127 of 255), with the spec's fallback, opaque black,
for every other descriptor. -/
def Sample.parse (style : String) : SkColor :=
  if style = "#ff0000" ∨ style = "rgb(255,0,0)" then SkColorSetARGB 255 255 0 0
  else if style = "rgba(0,0,0,0.5)" then SkColorSetARGB 127 0 0 0
  else SkColorSetARGB 255 0 0 0

/-- Modelled from the spec: the line cap of a state, one of butt, round and square,
butt by default. -/
def Sample.skiaCap (st : State SkColor) : SkPaint.Cap :=
  if st.lineCapString = "round" then .kRound_Cap
  else if st.lineCapString = "square" then .kSquare_Cap
  else .kButt_Cap

/-- Header functions over colours kept in backend form; the default state follows
the spec (line width 1, butt cap, global alpha 1). -/
def Sample.decls : Decls SkColor where
  parse := Sample.parse
  toSkia := fun c => c
  skiaCap := Sample.skiaCap
  defaultState :=
    { lineWidth := 1, lineCapString := "butt",
      strokeStyleString := "#000000", strokeStyle := Sample.parse "#000000",
      fillStyleString := "#000000", fillStyle := Sample.parse "#000000",
      globalAlpha := 1 }

/-- A freshly constructed context of the given size and output format. -/
def Sample.context (width height : Int) (format : Canvas.Format) : Context (List ℕ) SkColor :=
  Context.new Sample.skia Sample.decls width height format

/-- A context whose internal pixel buffer holds the given bytes. -/
def Sample.contextWith (pixels : List ℕ) (format : Canvas.Format) :
    Context (List ℕ) SkColor :=
  { Sample.context 0 0 format with m_surface := pixels }

/-- Script values for the sample binding: numbers, wrapped images, and
`undefined`. -/
inductive Sample.Val where
  | number (x : ℚ)
  | image (img : ImageData Unit)
  | undefined

/-- The conversions of the sample binding: only a wrapped image unwraps to an
image; a number converts to itself. -/
def Sample.binding : Binding Sample.Val Unit where
  unwrapImage := fun v => match v with
    | .image img => some img
    | _ => none
  toFloat := fun v => match v with
    | .number x => x
    | _ => 0
  undefined := .undefined

/-- A 4×3 image. -/
def Sample.image : ImageData Unit := { width := 4, height := 3, bitmap := () }

/-! ## Scheduler theorems -/

theorem Callback.call_fire {H V : Type} (f : H → V × H) (cb : Callback) (dt : ℚ) (host : H)
    (h : cb.m_current + dt > cb.m_interval) :
    Callback.call f cb dt host =
      (some (f host).1, ⟨cb.m_interval, cb.m_current + dt - cb.m_interval⟩, (f host).2) := by
  simp [Callback.call, h]

theorem Callback.call_idle {H V : Type} (f : H → V × H) (cb : Callback) (dt : ℚ) (host : H)
    (h : ¬ cb.m_current + dt > cb.m_interval) :
    Callback.call f cb dt host = (none, ⟨cb.m_interval, cb.m_current + dt⟩, host) := by
  simp only [Callback.call, if_neg h]

theorem Callback.run_tally_aux (cb : Callback) (dts : List ℚ) (n : ℕ) :
    (Callback.run tally cb dts n).1.m_interval = cb.m_interval ∧
    n ≤ (Callback.run tally cb dts n).2 ∧
    (Callback.run tally cb dts n).2 ≤ n + dts.length ∧
    (Callback.run tally cb dts n).1.m_current =
      cb.m_current + dts.sum - (((Callback.run tally cb dts n).2 : ℚ) - n) * cb.m_interval := by
  induction dts generalizing cb n with
  | nil => simp [Callback.run]
  | cons dt dts ih =>
    by_cases h : cb.m_current + dt > cb.m_interval
    · obtain ⟨h1, h2, h3, h4⟩ := ih ⟨cb.m_interval, cb.m_current + dt - cb.m_interval⟩ (n + 1)
      simp only [Callback.run, Callback.call_fire _ _ _ _ h, tally, List.sum_cons,
        List.length_cons]
      refine ⟨h1, by omega, by omega, ?_⟩
      rw [h4]
      push_cast
      ring
    · obtain ⟨h1, h2, h3, h4⟩ := ih ⟨cb.m_interval, cb.m_current + dt⟩ n
      simp only [Callback.run, Callback.call_idle _ _ _ _ h, List.sum_cons, List.length_cons]
      refine ⟨h1, h2, by omega, ?_⟩
      rw [h4]
      ring

theorem Callback.run_effect_aux {H V : Type} (f : H → V × H) (cb : Callback) (dts : List ℚ)
    (n : ℕ) (host : H) :
    ∃ k, (Callback.run tally cb dts n).2 = n + k ∧
      (Callback.run f cb dts host).2 = (effect f)^[k] host ∧
      (Callback.run f cb dts host).1 = (Callback.run tally cb dts n).1 := by
  induction dts generalizing cb n host with
  | nil => exact ⟨0, by simp [Callback.run]⟩
  | cons dt dts ih =>
    by_cases h : cb.m_current + dt > cb.m_interval
    · obtain ⟨k, h1, h2, h3⟩ :=
        ih ⟨cb.m_interval, cb.m_current + dt - cb.m_interval⟩ (n + 1) (f host).2
      refine ⟨k + 1, ?_, ?_, ?_⟩
      · simp only [Callback.run, Callback.call_fire _ _ _ _ h, tally, h1]
        omega
      · simp only [Callback.run, Callback.call_fire _ _ _ _ h, h2,
          Function.iterate_succ_apply, effect]
      · simp only [Callback.run, Callback.call_fire _ _ _ _ h, tally, h3]
    · obtain ⟨k, h1, h2, h3⟩ := ih ⟨cb.m_interval, cb.m_current + dt⟩ n host
      refine ⟨k, ?_, ?_, ?_⟩
      · simp only [Callback.run, Callback.call_idle _ _ _ _ h, h1]
      · simp only [Callback.run, Callback.call_idle _ _ _ _ h, h2]
      · simp only [Callback.run, Callback.call_idle _ _ _ _ h, h3]

/-- C1. One tick of `Callback::call`: with accumulator `acc`, interval and elapsed
time `dt`, the call invokes the registered function exactly once and leaves the
accumulator at `acc + dt - interval` when `acc + dt > interval`, and otherwise
does not invoke it and leaves the accumulator at `acc + dt`; the invocation
counter never advances by more than one in a tick.  For interval 100 ms and ticks
of 60, 60, 60 ms on a fresh callback the accumulators are 60, 20, 80 ms and the
single invocation happens on tick 2. -/
theorem Callback.call_one_tick {H V : Type} (f : H → V × H) (cb : Callback) (dt : ℚ)
    (host : H) (n : ℕ) :
    (Callback.call f cb dt host =
      if cb.m_current + dt > cb.m_interval then
        (some (f host).1, ⟨cb.m_interval, cb.m_current + dt - cb.m_interval⟩, (f host).2)
      else (none, ⟨cb.m_interval, cb.m_current + dt⟩, host)) ∧
    (Callback.call tally cb dt n).2.2 =
      n + (if cb.m_current + dt > cb.m_interval then 1 else 0) ∧
    (Callback.call tally cb dt n).2.2 ≤ n + 1 ∧
    Callback.run tally (Callback.new 100) [60 / 1000] 0 = (⟨100 / 1000, 60 / 1000⟩, 0) ∧
    Callback.run tally (Callback.new 100) [60 / 1000, 60 / 1000] 0
      = (⟨100 / 1000, 20 / 1000⟩, 1) ∧
    Callback.run tally (Callback.new 100) [60 / 1000, 60 / 1000, 60 / 1000] 0
      = (⟨100 / 1000, 80 / 1000⟩, 1) := by
  refine ⟨?_, ?_, ?_, ?_, ?_, ?_⟩
  · by_cases h : cb.m_current + dt > cb.m_interval
    · rw [if_pos h, Callback.call_fire _ _ _ _ h]
    · rw [if_neg h, Callback.call_idle _ _ _ _ h]
  · by_cases h : cb.m_current + dt > cb.m_interval
    · rw [if_pos h, Callback.call_fire _ _ _ _ h]; rfl
    · rw [if_neg h, Callback.call_idle _ _ _ _ h]; rfl
  · by_cases h : cb.m_current + dt > cb.m_interval
    · rw [Callback.call_fire _ _ _ _ h]; exact le_refl _
    · rw [Callback.call_idle _ _ _ _ h]; exact Nat.le_succ _
  · norm_num [Callback.run, Callback.call, Callback.new, tally]
  · norm_num [Callback.run, Callback.call, Callback.new, tally]
  · norm_num [Callback.run, Callback.call, Callback.new, tally]

/-- C10. Elapsed time is conserved: for every registered millisecond count and
every sequence of ticks applied to a fresh callback, the accumulator equals the
sum of the elapsed times minus `k` intervals, where `k` is the number of
invocations of the registered function (the host state is the function's effect
applied `k` times), `k` is at most the number of ticks, and the interval is the
millisecond count divided by 1000 after the run as before it. -/
theorem Callback.elapsed_time_conserved {H V : Type} (f : H → V × H) (interval : Int)
    (dts : List ℚ) (host : H) :
    (Callback.run tally (Callback.new interval) dts 0).1.m_current
      = dts.sum - ((Callback.run tally (Callback.new interval) dts 0).2 : ℚ)
          * ((interval : ℚ) / 1000) ∧
    (Callback.run tally (Callback.new interval) dts 0).2 ≤ dts.length ∧
    (Callback.run tally (Callback.new interval) dts 0).1.m_interval = (interval : ℚ) / 1000 ∧
    (Callback.new interval).m_interval = (interval : ℚ) / 1000 ∧
    Callback.run f (Callback.new interval) dts host
      = ((Callback.run tally (Callback.new interval) dts 0).1,
         (effect f)^[(Callback.run tally (Callback.new interval) dts 0).2] host) := by
  obtain ⟨h1, -, h3, h4⟩ := Callback.run_tally_aux (Callback.new interval) dts 0
  obtain ⟨k, e1, e2, e3⟩ := Callback.run_effect_aux f (Callback.new interval) dts 0 host
  refine ⟨?_, by simpa using h3, h1, rfl, ?_⟩
  · rw [h4]
    simp [Callback.new]
  · rw [Nat.zero_add] at e1
    rw [e1]
    exact Prod.ext e3 e2

/-! ## Pixel export theorems -/

theorem pixelBytes_length (ps : List Pixel) : (pixelBytes ps).length = 4 * ps.length := by
  induction ps with
  | nil => rfl
  | cons p ps ih =>
    obtain ⟨a, b, c, d⟩ := p
    simp only [pixelBytes, List.length_cons, ih]
    omega

theorem exists_pixelBytes (n : ℕ) (l : List ℕ) (h : l.length = 4 * n) :
    ∃ ps : List Pixel, ps.length = n ∧ pixelBytes ps = l := by
  induction n generalizing l with
  | zero =>
    refine ⟨[], rfl, ?_⟩
    have : l = [] := List.length_eq_zero.mp (by simpa using h)
    simp [this, pixelBytes]
  | succ n ih =>
    match l, h with
    | a :: b :: c :: d :: l, h =>
      obtain ⟨ps, hp, hb⟩ := ih l (by simp only [List.length_cons] at h; omega)
      exact ⟨(a, b, c, d) :: ps, by simp [hp], by simp [pixelBytes, hb]⟩
    | [], h => simp at h
    | [_], h => simp at h; omega
    | [_, _], h => simp at h; omega
    | [_, _, _], h => simp at h; omega

theorem copyImageTo.body_eq (spre srest tpre told : List ℕ) (a b c d x0 x1 x2 x3 : ℕ)
    (rs ws : List ℕ) (it i : ℕ) (hs : spre.length = i) (ht : tpre.length = i) :
    copyImageTo.body i
      { sourceData := spre ++ a :: b :: c :: d :: srest,
        targetData := tpre ++ x0 :: x1 :: x2 :: x3 :: told,
        reads := rs, writes := ws, iterations := it }
    = .ok { sourceData := spre ++ a :: b :: c :: d :: srest,
            targetData := tpre ++ b :: c :: d :: a :: told,
            reads := rs ++ [i + 1, i + 2, i + 3, i + 0],
            writes := ws ++ [i + 0, i + 1, i + 2, i + 3], iterations := it } := by
  subst hs
  simp [copyImageTo.body, Buffers.read, Buffers.write, bind, Except.bind,
    List.getElem?_append_right, ht]
  refine ⟨?_, ?_, ?_, ?_⟩ <;> simp [List.getElem_append_right]

theorem range'_four (i n : ℕ) :
    List.range' i (4 * (n + 1))
      = i :: (i + 1) :: (i + 2) :: (i + 3) :: List.range' (i + 4) (4 * n) := by
  have h : 4 * (n + 1) = 4 * n + 1 + 1 + 1 + 1 := by ring
  rw [h]
  simp only [List.range'_succ, Nat.add_assoc]

theorem copyImageTo.loop_eq (ps : List Pixel) :
    ∀ (size bound i : ℕ) (spre tpre told rs ws : List ℕ) (it : ℕ),
      spre.length = i → tpre.length = i → told.length = 4 * ps.length →
      size = i + 4 * ps.length → size < SIZE_MOD → ps.length + 1 ≤ bound →
      copyImageTo.loop size bound i
        { sourceData := spre ++ pixelBytes ps, targetData := tpre ++ told,
          reads := rs, writes := ws, iterations := it }
      = .ok { sourceData := spre ++ pixelBytes ps,
              targetData := tpre ++ pixelBytes (ps.map Pixel.swap),
              reads := rs ++ swapReads i ps.length,
              writes := ws ++ List.range' i (4 * ps.length),
              iterations := it + ps.length } := by
  induction ps with
  | nil =>
    intro size bound i spre tpre told rs ws it _ _ ht hsize _ hb
    have htold : told = [] := List.length_eq_zero.mp (by simpa using ht)
    obtain ⟨b, rfl⟩ : ∃ b, bound = b + 1 := ⟨bound - 1, by simp at hb; omega⟩
    subst htold
    simp only [List.length_nil, Nat.mul_zero, Nat.add_zero] at hsize
    simp [copyImageTo.loop, hsize, swapReads, pixelBytes]
  | cons p ps ih =>
    intro size bound i spre tpre told rs ws it hs htp ht hsize hmod hb
    obtain ⟨a, b, c, d⟩ := p
    obtain ⟨bd, rfl⟩ : ∃ b, bound = b + 1 := ⟨bound - 1, by omega⟩
    simp only [List.length_cons] at ht hsize hb
    match told, ht with
    | x0 :: x1 :: x2 :: x3 :: told, ht =>
      have hlt : i < size := by omega
      have hstep : (i + 4) % SIZE_MOD = i + 4 := Nat.mod_eq_of_lt (by omega)
      have hih := ih size bd (i + 4) (spre ++ [a, b, c, d]) (tpre ++ [b, c, d, a]) told
        (rs ++ [i + 1, i + 2, i + 3, i + 0]) (ws ++ [i + 0, i + 1, i + 2, i + 3]) (it + 1)
        (by simp [hs]) (by simp [htp])
        (by simp only [List.length_cons] at ht; omega) (by omega) hmod (by omega)
      simp only [List.append_assoc, List.cons_append, List.nil_append] at hih
      simp only [copyImageTo.loop, if_pos hlt, pixelBytes, List.map_cons, Pixel.swap,
        copyImageTo.body_eq spre (pixelBytes ps) tpre told a b c d x0 x1 x2 x3 rs ws it i hs htp,
        bind, Except.bind, hstep, hih, List.length_cons, swapReads, range'_four]
      simp [Nat.add_assoc, Nat.add_comm 1]
    | [], ht => simp at ht
    | [_], ht => simp at ht; omega
    | [_, _], ht => simp at ht; omega
    | [_, _, _], ht => simp at ht; omega

theorem swapReads_lt (n : ℕ) : ∀ (i j : ℕ), j ∈ swapReads i n → j < i + 4 * n := by
  induction n with
  | zero => intro i j h; simp [swapReads] at h
  | succ n ih =>
    intro i j h
    simp only [swapReads, List.mem_cons] at h
    rcases h with h | h | h | h | h
    · omega
    · omega
    · omega
    · omega
    · have := ih (i + 4) j h
      omega

theorem Context.copyImageTo_swap_eq {S Bmp Color : Type} (K : Skia S Bmp)
    (ctx : Context S Color) (ps : List Pixel) (target : List ℕ)
    (hfmt : ctx.m_format = Canvas.Format.kRGBA)
    (hsrc : K.getPixels ctx.m_surface = pixelBytes ps)
    (htgt : target.length = 4 * ps.length)
    (hsize : 4 * ps.length < SIZE_MOD) :
    ctx.copyImageTo K target
      = .ok { sourceData := pixelBytes ps,
              targetData := pixelBytes (ps.map Pixel.swap),
              reads := swapReads 0 ps.length,
              writes := List.range (4 * ps.length),
              iterations := ps.length } := by
  have h := copyImageTo.loop_eq ps (4 * ps.length) (4 * ps.length + 1) 0 [] [] target [] [] 0
    rfl rfl htgt (by omega) hsize (by omega)
  simp only [List.nil_append, Nat.zero_add] at h
  simp only [Context.copyImageTo, hfmt, if_true, hsrc, pixelBytes_length, h,
    List.range_eq_range']

/-- C2. `copyImageTo` on an internal buffer of whole pixels `ps`, with a target of
the same size: when the output format is `Canvas::kRGBA` the target ends up
holding, at each pixel position, the swap `[B, C, D, A]` of the internal pixel
`[A, B, C, D]`; for any other format the target equals the internal buffer byte
for byte. -/
theorem Context.copyImageTo_pixels {S Bmp Color : Type} (K : Skia S Bmp)
    (ctx : Context S Color) (ps : List Pixel) (target : List ℕ)
    (hsrc : K.getPixels ctx.m_surface = pixelBytes ps)
    (htgt : target.length = 4 * ps.length)
    (hsize : 4 * ps.length < SIZE_MOD) :
    (ctx.m_format = Canvas.Format.kRGBA →
      Except.map Buffers.targetData (ctx.copyImageTo K target)
        = .ok (pixelBytes (ps.map Pixel.swap))) ∧
    (ctx.m_format ≠ Canvas.Format.kRGBA →
      Except.map Buffers.targetData (ctx.copyImageTo K target) = .ok (pixelBytes ps)) := by
  constructor
  · intro hfmt
    rw [Context.copyImageTo_swap_eq K ctx ps target hfmt hsrc htgt hsize]
    rfl
  · intro hfmt
    have hlen : (pixelBytes ps).length = target.length := by
      rw [pixelBytes_length, htgt]
    simp [Context.copyImageTo, hfmt, hsrc, memcpy, Except.map, hlen]

/-- The export of C2 on a 1×1 buffer `[10, 20, 30, 40]`, in both output formats. -/
theorem Context.copyImageTo_pixels_witness :
    Except.map Buffers.targetData
        ((Sample.contextWith [10, 20, 30, 40] .kRGBA).copyImageTo Sample.skia [0, 0, 0, 0])
      = .ok [20, 30, 40, 10] ∧
    Except.map Buffers.targetData
        ((Sample.contextWith [10, 20, 30, 40] .kARGB).copyImageTo Sample.skia [0, 0, 0, 0])
      = .ok [10, 20, 30, 40] :=
  ⟨(Context.copyImageTo_pixels Sample.skia (Sample.contextWith [10, 20, 30, 40] .kRGBA)
      [(10, 20, 30, 40)] [0, 0, 0, 0] rfl rfl (by decide)).1 rfl,
   (Context.copyImageTo_pixels Sample.skia (Sample.contextWith [10, 20, 30, 40] .kARGB)
      [(10, 20, 30, 40)] [0, 0, 0, 0] rfl rfl (by decide)).2 (by decide)⟩

/-- C8. Whole-pixel export is in bounds and total: for an internal buffer of exactly
`width * height * 4` bytes and a target of the same size, the channel-swapping
loop of `copyImageTo` produces a result (no out-of-bounds access, no iteration
bound reached); every index it reads or writes is below the buffer size; the
write record is `0, 1, ..., size - 1`, so every target byte is written exactly
once; it completes `width * height` iterations; and the internal buffer is
unchanged. -/
theorem Context.copyImageTo_in_bounds {S Bmp Color : Type} (K : Skia S Bmp)
    (ctx : Context S Color) (width height : ℕ) (target : List ℕ)
    (hfmt : ctx.m_format = Canvas.Format.kRGBA)
    (hsrc : (K.getPixels ctx.m_surface).length = width * height * 4)
    (htgt : target.length = width * height * 4)
    (hsize : width * height * 4 < SIZE_MOD) :
    ∃ r : Buffers, ctx.copyImageTo K target = .ok r ∧
      (∀ j ∈ r.reads, j < width * height * 4) ∧
      (∀ j ∈ r.writes, j < width * height * 4) ∧
      r.writes = List.range (width * height * 4) ∧
      (∀ j, j < width * height * 4 → r.writes.count j = 1) ∧
      r.targetData.length = width * height * 4 ∧
      r.iterations = width * height ∧
      r.sourceData = K.getPixels ctx.m_surface := by
  obtain ⟨ps, hlen, hps⟩ := exists_pixelBytes (width * height) (K.getPixels ctx.m_surface)
    (by rw [hsrc]; ring)
  have h4 : 4 * ps.length = width * height * 4 := by rw [hlen]; ring
  have h := Context.copyImageTo_swap_eq K ctx ps target hfmt hps.symm
    (by rw [htgt, h4]) (by rw [h4]; exact hsize)
  refine ⟨_, h, ?_, ?_, ?_, ?_, ?_, hlen, hps⟩
  · intro j hj
    have := swapReads_lt ps.length 0 j hj
    omega
  · intro j hj
    have := List.mem_range.mp hj
    omega
  · simp only [h4]
  · intro j hj
    exact List.count_eq_one_of_mem (List.nodup_range _)
      (List.mem_range.mpr (by simp only [h4]; exact hj))
  · simp only [pixelBytes_length, List.length_map, h4]

/-- The export of C8 on a 2×1 buffer. -/
theorem Context.copyImageTo_in_bounds_witness :
    ∃ r : Buffers,
      (Sample.contextWith [1, 2, 3, 4, 5, 6, 7, 8] .kRGBA).copyImageTo Sample.skia
          [0, 0, 0, 0, 0, 0, 0, 0] = .ok r ∧
      (∀ j ∈ r.reads, j < 2 * 1 * 4) ∧
      (∀ j ∈ r.writes, j < 2 * 1 * 4) ∧
      r.writes = List.range (2 * 1 * 4) ∧
      (∀ j, j < 2 * 1 * 4 → r.writes.count j = 1) ∧
      r.targetData.length = 2 * 1 * 4 ∧
      r.iterations = 2 * 1 ∧
      r.sourceData = Sample.skia.getPixels
        (Sample.contextWith [1, 2, 3, 4, 5, 6, 7, 8] .kRGBA).m_surface :=
  Context.copyImageTo_in_bounds Sample.skia (Sample.contextWith [1, 2, 3, 4, 5, 6, 7, 8] .kRGBA)
    2 1 [0, 0, 0, 0, 0, 0, 0, 0] rfl rfl rfl (by decide)

/-! ## Paint synchronisation theorems -/

theorem toU8CPU_half : toU8CPU ((2⁻¹ : ℚ) * 255) = 127 := by
  norm_num [toU8CPU, Rat.floor]
  rfl

theorem toU8CPU_one : toU8CPU (255 : ℚ) = 255 := by
  norm_num [toU8CPU, Rat.floor]
  rfl

theorem Sample.parse_red : Sample.parse "#ff0000" = SkColorSetARGB 255 255 0 0 := by
  decide

/-- C3. The style setters leave a stale alpha.  For every context and descriptor,
`setStrokeStyle` leaves the stroke paint with all four channels of the parsed
colour, so with that colour's own alpha, while `syncPaintWithState` on the
resulting state gives the stroke paint the alpha `globalAlpha × 255` (fraction
discarded, 8 bits); likewise `setFillStyle` and the fill paint; `setGlobalAlpha`
does give both paints the alpha that `syncPaintWithState` computes.  On a fresh
sample context after `setGlobalAlpha(0.5)`, whose paints equal what
`syncPaintWithState` computes, `setStrokeStyle("#ff0000")` leaves the stroke paint
with alpha 255 where `syncPaintWithState` computes 127, and `setFillStyle("#ff0000")`
does the same to the fill paint. -/
theorem Context.setStyle_stale_alpha {S Color : Type} (D : Decls Color) (ctx : Context S Color)
    (style : String) (alpha : ℚ) :
    ((ctx.setStrokeStyle D style).m_strokePaint.color = D.toSkia (D.parse style) ∧
     ((ctx.setStrokeStyle D style).syncPaintWithState D).m_strokePaint.color.a
        = toU8CPU (ctx.currentState.globalAlpha * 255) % 256) ∧
    ((ctx.setFillStyle D style).m_fillPaint.color = D.toSkia (D.parse style) ∧
     ((ctx.setFillStyle D style).syncPaintWithState D).m_fillPaint.color.a
        = toU8CPU (ctx.currentState.globalAlpha * 255) % 256) ∧
    ((ctx.setGlobalAlpha alpha).m_strokePaint.color.a
        = ((ctx.setGlobalAlpha alpha).syncPaintWithState D).m_strokePaint.color.a ∧
     (ctx.setGlobalAlpha alpha).m_fillPaint.color.a
        = ((ctx.setGlobalAlpha alpha).syncPaintWithState D).m_fillPaint.color.a) ∧
    ((((Sample.context 1 1 .kARGB).setGlobalAlpha (1 / 2)).syncPaintWithState
          Sample.decls).m_strokePaint
        = ((Sample.context 1 1 .kARGB).setGlobalAlpha (1 / 2)).m_strokePaint ∧
     (((Sample.context 1 1 .kARGB).setGlobalAlpha (1 / 2)).syncPaintWithState
          Sample.decls).m_fillPaint
        = ((Sample.context 1 1 .kARGB).setGlobalAlpha (1 / 2)).m_fillPaint) ∧
    ((((Sample.context 1 1 .kARGB).setGlobalAlpha (1 / 2)).setStrokeStyle Sample.decls
          "#ff0000").m_strokePaint.color.a = 255 ∧
     ((((Sample.context 1 1 .kARGB).setGlobalAlpha (1 / 2)).setStrokeStyle Sample.decls
          "#ff0000").syncPaintWithState Sample.decls).m_strokePaint.color.a = 127) ∧
    ((((Sample.context 1 1 .kARGB).setGlobalAlpha (1 / 2)).setFillStyle Sample.decls
          "#ff0000").m_fillPaint.color.a = 255 ∧
     ((((Sample.context 1 1 .kARGB).setGlobalAlpha (1 / 2)).setFillStyle Sample.decls
          "#ff0000").syncPaintWithState Sample.decls).m_fillPaint.color.a = 127) ∧
    ((((Sample.context 1 1 .kARGB).setGlobalAlpha (1 / 2)).setStrokeStyle Sample.decls
          "#ff0000").m_strokePaint
        ≠ ((((Sample.context 1 1 .kARGB).setGlobalAlpha (1 / 2)).setStrokeStyle Sample.decls
          "#ff0000").syncPaintWithState Sample.decls).m_strokePaint ∧
     (((Sample.context 1 1 .kARGB).setGlobalAlpha (1 / 2)).setFillStyle Sample.decls
          "#ff0000").m_fillPaint
        ≠ ((((Sample.context 1 1 .kARGB).setGlobalAlpha (1 / 2)).setFillStyle Sample.decls
          "#ff0000").syncPaintWithState Sample.decls).m_fillPaint) := by
  have hs1 : (((Sample.context 1 1 .kARGB).setGlobalAlpha (1 / 2)).setStrokeStyle Sample.decls
      "#ff0000").m_strokePaint.color.a = 255 := by
    simp [Context.setStrokeStyle, Context.setCurrentState, Context.currentState, Sample.decls,
      Sample.parse_red, SkColorSetARGB, SkPaint.setColor]
  have hs2 : ((((Sample.context 1 1 .kARGB).setGlobalAlpha (1 / 2)).setStrokeStyle Sample.decls
      "#ff0000").syncPaintWithState Sample.decls).m_strokePaint.color.a = 127 := by
    simp [Context.setStrokeStyle, Context.setGlobalAlpha, Context.setCurrentState,
      Context.currentState, Sample.decls, Context.syncPaintWithState, SkPaint.setAlpha,
      SkPaint.setColor, SkPaint.setStrokeWidth, SkPaint.setStrokeCap, toU8CPU_half]
  have hf1 : (((Sample.context 1 1 .kARGB).setGlobalAlpha (1 / 2)).setFillStyle Sample.decls
      "#ff0000").m_fillPaint.color.a = 255 := by
    simp [Context.setFillStyle, Context.setCurrentState, Context.currentState, Sample.decls,
      Sample.parse_red, SkColorSetARGB, SkPaint.setColor]
  have hf2 : ((((Sample.context 1 1 .kARGB).setGlobalAlpha (1 / 2)).setFillStyle Sample.decls
      "#ff0000").syncPaintWithState Sample.decls).m_fillPaint.color.a = 127 := by
    simp [Context.setFillStyle, Context.setGlobalAlpha, Context.setCurrentState,
      Context.currentState, Sample.decls, Context.syncPaintWithState, SkPaint.setAlpha,
      SkPaint.setColor, SkPaint.setStrokeWidth, SkPaint.setStrokeCap, toU8CPU_half]
  refine ⟨⟨rfl, rfl⟩, ⟨rfl, rfl⟩, ⟨rfl, rfl⟩, ⟨?_, ?_⟩, ⟨hs1, hs2⟩, ⟨hf1, hf2⟩, ⟨?_, ?_⟩⟩
  · simp [Context.setGlobalAlpha, Context.setCurrentState, Context.currentState, Sample.decls,
      Sample.context, Context.new, Context.syncPaintWithState, SkPaint.setAlpha,
      SkPaint.setColor, SkPaint.setStrokeWidth, SkPaint.setStrokeCap, toU8CPU_one,
      toU8CPU_half, Sample.skiaCap]
  · simp [Context.setGlobalAlpha, Context.setCurrentState, Context.currentState, Sample.decls,
      Sample.context, Context.new, Context.syncPaintWithState, SkPaint.setAlpha,
      SkPaint.setColor, SkPaint.setStrokeWidth, SkPaint.setStrokeCap, toU8CPU_one,
      toU8CPU_half, Sample.skiaCap]
  · intro h
    have := congrArg (fun p : SkPaint => p.color.a) h
    simp only [hs1, hs2] at this
    omega
  · intro h
    have := congrArg (fun p : SkPaint => p.color.a) h
    simp only [hf1, hf2] at this
    omega

/-! ## drawImageCallback theorems -/

/-- C5. The argument-count check of `drawImageCallback`: a call whose number of
positional arguments is neither 3 nor 5 is stopped by the check and the holder's
context (state stack, paints, path, surface) is what it was before the call; a
call with 3 or 5 arguments is not stopped by this check; and with 3 arguments, a
holder context and a first argument that unwraps to an image, the call returns
after `drawImage` with the image's own width and height. -/
theorem Context.drawImageCallback_argument_count {S Bmp Color Val : Type} (K : Skia S Bmp)
    (J : Binding Val Bmp) (args : Arguments Val S Color) :
    (¬ (args.values.length = 3 ∨ args.values.length = 5) →
      Context.drawImageCallback K J args = (.wrongArgumentCount, args.holder)) ∧
    ((args.values.length = 3 ∨ args.values.length = 5) →
      (Context.drawImageCallback K J args).1 ≠ .wrongArgumentCount) ∧
    (∀ (self : Context S Color) (image : ImageData Bmp),
      args.values.length = 3 → args.holder = some self →
      J.unwrapImage (args.values.getD 0 J.undefined) = some image →
      Context.drawImageCallback K J args
        = (.undefined,
           some (self.drawImage K image (J.toFloat (args.values.getD 1 J.undefined))
             (J.toFloat (args.values.getD 2 J.undefined)) image.width image.height))) := by
  refine ⟨?_, ?_, ?_⟩
  · intro h
    simp only [Context.drawImageCallback, if_pos h]
  · intro h
    simp only [Context.drawImageCallback, not_not.mpr h, if_false]
    split <;> simp
  · intro self image hlen hself himg
    have h : ¬ ¬ (args.values.length = 3 ∨ args.values.length = 5) := not_not.mpr (Or.inl hlen)
    simp only [Context.drawImageCallback, if_neg h, hself, himg]
    simp only [hlen, if_true]

/-- The check of C5 on a call with 4 arguments: it is stopped, and the holder's
context is returned as it was. -/
theorem Context.drawImageCallback_argument_count_witness :
    Context.drawImageCallback Sample.skia Sample.binding
        { holder := some (Sample.context 2 2 .kARGB),
          values := [.image Sample.image, .number 0, .number 0, .number 8] }
      = (.wrongArgumentCount, some (Sample.context 2 2 .kARGB)) :=
  (Context.drawImageCallback_argument_count Sample.skia Sample.binding
    { holder := some (Sample.context 2 2 .kARGB),
      values := [.image Sample.image, .number 0, .number 0, .number 8] }).1 (by decide)

/-! ## State and path theorems -/

theorem Context.step_stylesResolved {S Bmp Color : Type} (K : Skia S Bmp) (D : Decls Color)
    (ctx : Context S Color) (op : Op Bmp) (h : ctx.stylesResolved D) :
    (ctx.step K D op).stylesResolved D := by
  obtain ⟨hs, hf⟩ := h
  cases op <;> first
    | exact ⟨hs, hf⟩
    | exact ⟨rfl, hf⟩
    | exact ⟨hs, rfl⟩

theorem Context.steps_stylesResolved {S Bmp Color : Type} (K : Skia S Bmp) (D : Decls Color)
    (ops : List (Op Bmp)) : ∀ (ctx : Context S Color), ctx.stylesResolved D →
      (ctx.steps K D ops).stylesResolved D := by
  induction ops with
  | nil => intro ctx h; exact h
  | cons op ops ih =>
    intro ctx h
    exact ih (ctx.step K D op) (Context.step_stylesResolved K D ctx op h)

/-- C6. Descriptor and colour stay in step: if the current state's stroke and fill
colours are the parse of their descriptor strings, they still are after every
operation of `Context` and after every sequence of operations; after
`setStrokeStyle(s)` the state holds `strokeStyleString = s` and
`strokeStyle = parse(s)` with the fill string and colour untouched, and after
`setFillStyle(s)` it holds `fillStyleString = s` and `fillStyle = parse(s)` with
the stroke string and colour untouched, for every string `s`. -/
theorem Context.styles_stay_resolved {S Bmp Color : Type} (K : Skia S Bmp) (D : Decls Color)
    (ctx : Context S Color) (h : ctx.stylesResolved D) :
    (∀ op : Op Bmp, (ctx.step K D op).stylesResolved D) ∧
    (∀ ops : List (Op Bmp), (ctx.steps K D ops).stylesResolved D) ∧
    (∀ s : String,
      (ctx.setStrokeStyle D s).currentState.strokeStyleString = s ∧
      (ctx.setStrokeStyle D s).currentState.strokeStyle = D.parse s ∧
      (ctx.setStrokeStyle D s).currentState.fillStyleString
        = ctx.currentState.fillStyleString ∧
      (ctx.setStrokeStyle D s).currentState.fillStyle = ctx.currentState.fillStyle) ∧
    (∀ s : String,
      (ctx.setFillStyle D s).currentState.fillStyleString = s ∧
      (ctx.setFillStyle D s).currentState.fillStyle = D.parse s ∧
      (ctx.setFillStyle D s).currentState.strokeStyleString
        = ctx.currentState.strokeStyleString ∧
      (ctx.setFillStyle D s).currentState.strokeStyle = ctx.currentState.strokeStyle) :=
  ⟨fun op => Context.step_stylesResolved K D ctx op h,
   fun ops => Context.steps_stylesResolved K D ops ctx h,
   fun _ => ⟨rfl, rfl, rfl, rfl⟩,
   fun _ => ⟨rfl, rfl, rfl, rfl⟩⟩

/-- The invariant of C6 on a fresh sample context, carried through a stroke-style
change, a fill and a line-width change. -/
theorem Context.styles_stay_resolved_witness :
    ((Sample.context 1 1 .kARGB).steps Sample.skia Sample.decls
      [.setStrokeStyle "#ff0000", .fill, .setLineWidth 2]).stylesResolved Sample.decls :=
  (Context.styles_stay_resolved Sample.skia Sample.decls (Sample.context 1 1 .kARGB)
    ⟨rfl, rfl⟩).2.1 [.setStrokeStyle "#ff0000", .fill, .setLineWidth 2]

theorem Context.step_path_length {S Bmp Color : Type} (K : Skia S Bmp) (D : Decls Color)
    (ctx : Context S Color) (op : Op Bmp) (h : op.isBeginPath = false) :
    ctx.m_path.length ≤ (ctx.step K D op).m_path.length := by
  cases op <;> first
    | exact le_refl _
    | (simp only [Context.step, Context.moveTo, Context.lineTo, Context.quadraticCurveTo,
        Context.bezierCurveTo, Context.arcTo, Context.rect, SkPath.moveTo, SkPath.lineTo,
        SkPath.quadTo, SkPath.cubicTo, SkPath.arcTo, SkPath.addRect, List.length_append,
        List.length_singleton]
       exact Nat.le_succ _)
    | (simp only [Op.isBeginPath] at h
       cases h)

theorem Context.steps_snoc {S Bmp Color : Type} (K : Skia S Bmp) (D : Decls Color)
    (ctx : Context S Color) (ops : List (Op Bmp)) (op : Op Bmp) :
    ctx.steps K D (ops ++ [op]) = (ctx.steps K D ops).step K D op := by
  simp [Context.steps, List.foldl_append]

theorem Context.steps_path_length {S Bmp Color : Type} (K : Skia S Bmp) (D : Decls Color)
    (ops : List (Op Bmp)) : ∀ (ctx : Context S Color),
      (∀ op ∈ ops, op.isBeginPath = false) →
      ctx.m_path.length ≤ (ctx.steps K D ops).m_path.length := by
  induction ops with
  | nil => intro ctx _; exact le_refl _
  | cons op ops ih =>
    intro ctx h
    exact le_trans (Context.step_path_length K D ctx op (h op (List.mem_cons_self _ _)))
      (ih (ctx.step K D op) (fun o ho => h o (List.mem_cons_of_mem _ ho)))

/-- C7. The path command log: right after `beginPath()` the log is empty; along
every sequence of operations with no `beginPath` among them the log is at least as
long after the sequence as before it, and at least as long after each operation
of the sequence as it was just before that operation; and the setters,
`closePath`, `clip`, `fill` and `stroke` leave the log unchanged. -/
theorem Context.path_log_monotone {S Bmp Color : Type} (K : Skia S Bmp) (D : Decls Color)
    (ctx : Context S Color) (ops : List (Op Bmp))
    (h : ∀ op ∈ ops, op.isBeginPath = false) :
    (ctx.step K D .beginPath).m_path = [] ∧
    ctx.beginPath.m_path.length = 0 ∧
    ctx.m_path.length ≤ (ctx.steps K D ops).m_path.length ∧
    (∀ n, n < ops.length →
      (ctx.steps K D (ops.take n)).m_path.length
        ≤ (ctx.steps K D (ops.take (n + 1))).m_path.length) ∧
    (∀ w, (ctx.setLineWidth w).m_path = ctx.m_path) ∧
    (∀ cap, (ctx.setLineCap D cap).m_path = ctx.m_path) ∧
    (∀ s, (ctx.setStrokeStyle D s).m_path = ctx.m_path) ∧
    (∀ s, (ctx.setFillStyle D s).m_path = ctx.m_path) ∧
    (∀ a, (ctx.setGlobalAlpha a).m_path = ctx.m_path) ∧
    ctx.closePath.m_path = ctx.m_path ∧
    ctx.clip.m_path = ctx.m_path ∧
    (ctx.fill K).m_path = ctx.m_path ∧
    (ctx.stroke K).m_path = ctx.m_path := by
  refine ⟨rfl, rfl, Context.steps_path_length K D ops ctx h, ?_, fun _ => rfl, fun _ => rfl,
    fun _ => rfl, fun _ => rfl, fun _ => rfl, rfl, rfl, rfl, rfl⟩
  intro n hn
  have hget : ops.take (n + 1) = ops.take n ++ [ops[n]] := by
    rw [List.take_succ, List.getElem?_eq_getElem hn]
    rfl
  rw [hget, Context.steps_snoc]
  exact Context.step_path_length K D _ _ (h _ (List.getElem_mem hn))

/-- The log of C7 along `moveTo, lineTo, setLineWidth, stroke, rect` on a fresh
sample context: it ends at least as long as it started (empty). -/
theorem Context.path_log_monotone_witness :
    (Sample.context 1 1 .kARGB).m_path.length
      ≤ ((Sample.context 1 1 .kARGB).steps Sample.skia Sample.decls
          [.moveTo 0 0, .lineTo 1 1, .setLineWidth 2, .stroke, .rect 0 0 1 1]).m_path.length :=
  (Context.path_log_monotone Sample.skia Sample.decls (Sample.context 1 1 .kARGB)
    [.moveTo 0 0, .lineTo 1 1, .setLineWidth 2, .stroke, .rect 0 0 1 1]
    (by intro op hop
        simp only [List.mem_cons, List.mem_singleton, List.not_mem_nil, or_false] at hop
        rcases hop with h | h | h | h | h <;> subst h <;> rfl)).2.2.1

end canvas
